import Mathlib

/-!
Shallow embedding of the lumina-disk-manager device-tracking core
(src/lumina-disk-manager/manager.cpp, manager.h).

The uDisks2 service adapter (`udisks2.h`, a stateless set of bus query
wrappers, treated by the spec as an external collaborator) is modelled as a
structure of response functions: each operation of the core is a pure
function of the adapter's responses, the current state, and the call's
argument, returning the new state together with the list of emitted Qt
signals (events) and the list of adapter mutation requests issued.
-/

namespace LuminaDiskManager

/-- Responses of the external uDisks2 service adapter (`uDisks2::` calls in
manager.cpp) plus the validity of the per-device D-Bus interface created in
the `Device` constructor. Mutation calls (`mountDevice`, `unmountDevice`,
`ejectDevice`) return an error string, empty on success. -/
structure UDisks2 where
  getDevices : List String
  getDrivePath : String → String
  getDeviceName : String → String
  isRemovable : String → Bool
  getMountPoint : String → String
  getFileSystem : String → String
  isOptical : String → Bool
  hasMedia : String → Bool
  opticalDataTracks : String → Int
  opticalAudioTracks : String → Int
  opticalMediaIsBlank : String → Bool
  hasPartition : String → Bool
  mountDevice : String → String
  unmountDevice : String → String
  ejectDevice : String → String
  devBusValid : String → Bool

/-- Qt signals emitted by `Device` and `Manager` (manager.h). -/
inductive Event where
  | mediaChanged (devicePath : String) (mediaPresent : Bool)
  | mountpointChanged (devicePath : String) (deviceMountpoint : String)
  | nameChanged (devicePath : String) (deviceName : String)
  | errorMessage (devicePath : String) (deviceError : String)
  | updatedDevices
  | foundNewDevice (path : String)
  deriving DecidableEq, Repr

/-- Mutation requests issued to the uDisks2 adapter. -/
inductive AdapterCall where
  | mountCall (devicePath : String)
  | unmountCall (devicePath : String)
  | ejectCall (drivePath : String)
  deriving DecidableEq, Repr

/-- State of one `Device` object (manager.h). `dbusValid` models
`dbus->isValid()` for the QDBusInterface created in the constructor. -/
structure Device where
  name : String
  path : String
  dev : String
  drive : String
  mountpoint : String
  filesystem : String
  isOptical : Bool
  isRemovable : Bool
  hasMedia : Bool
  opticalDataTracks : Int
  opticalAudioTracks : Int
  isBlankDisc : Bool
  hasPartition : Bool
  dbusValid : Bool
  deriving DecidableEq, Repr

/-- `Device::updateDeviceProperties` (manager.cpp lines 66-96): if the bus
interface is valid, re-query every attribute, then emit `mediaChanged`,
`mountpointChanged`, `nameChanged` for each of the three tracked attributes
whose value changed, carrying the device path and the new value. -/
def Device.updateDeviceProperties (u : UDisks2) (d : Device) :
    Device × List Event :=
  if d.dbusValid then
    let hadMedia := d.hasMedia
    let lastMountpoint := d.mountpoint
    let lastName := d.name
    let newDrive := u.getDrivePath d.path
    let d' : Device := { d with
      drive := newDrive
      name := u.getDeviceName newDrive
      dev := (d.path.splitOn "/").getLastD ""
      isRemovable := u.isRemovable newDrive
      mountpoint := u.getMountPoint d.path
      filesystem := u.getFileSystem d.path
      isOptical := u.isOptical newDrive
      hasMedia := u.hasMedia newDrive
      opticalDataTracks := u.opticalDataTracks newDrive
      opticalAudioTracks := u.opticalAudioTracks newDrive
      isBlankDisc := u.opticalMediaIsBlank newDrive
      hasPartition := u.hasPartition d.path }
    (d',
      (if hadMedia ≠ d'.hasMedia then [Event.mediaChanged d.path d'.hasMedia] else []) ++
      (if lastMountpoint ≠ d'.mountpoint then [Event.mountpointChanged d.path d'.mountpoint] else []) ++
      (if lastName ≠ d'.name then [Event.nameChanged d.path d'.name] else []))
  else (d, [])

/-- `Device::eject` (manager.cpp lines 55-64): no-op when the bus interface
is invalid; otherwise request eject for the (pre-refresh) drive, refresh,
and if the reply is non-empty emit an error (the inner fallback message is
kept verbatim from the source even though its guard cannot hold). -/
def Device.eject (u : UDisks2) (d : Device) :
    Device × List Event × List AdapterCall :=
  if !d.dbusValid then (d, [], [])
  else
    let reply := u.ejectDevice d.drive
    let r := d.updateDeviceProperties u
    let d' := r.fst
    if !reply.isEmpty then
      let msg := if reply.isEmpty then "Failed to eject " ++ d'.name else reply
      (d', r.snd ++ [Event.errorMessage d'.path msg], [AdapterCall.ejectCall d.drive])
    else
      (d', r.snd, [AdapterCall.ejectCall d.drive])

/-- `Device::unmount` (manager.cpp lines 42-53): no-op when the bus
interface is invalid or the mountpoint is empty; otherwise request unmount,
refresh unconditionally, and emit an error when the reply is non-empty or
the refreshed mountpoint is still non-empty (synthesizing
"Failed to umount <name>" when the reply was empty); on success invoke
`eject` when the (refreshed) device is optical. -/
def Device.unmount (u : UDisks2) (d : Device) :
    Device × List Event × List AdapterCall :=
  if !d.dbusValid || d.mountpoint.isEmpty then (d, [], [])
  else
    let reply := u.unmountDevice d.path
    let r := d.updateDeviceProperties u
    let d' := r.fst
    if !reply.isEmpty || !d'.mountpoint.isEmpty then
      let msg := if reply.isEmpty then "Failed to umount " ++ d'.name else reply
      (d', r.snd ++ [Event.errorMessage d'.path msg], [AdapterCall.unmountCall d.path])
    else if d'.isOptical then
      let e := d'.eject u
      (e.fst, r.snd ++ e.snd.fst, AdapterCall.unmountCall d.path :: e.snd.snd)
    else
      (d', r.snd, [AdapterCall.unmountCall d.path])

/-- `Device::mount` (manager.cpp lines 31-40): no-op when the bus interface
is invalid or the mountpoint is non-empty; otherwise request mount; on a
non-empty reply emit an error and return without refreshing, else refresh. -/
def Device.mount (u : UDisks2) (d : Device) :
    Device × List Event × List AdapterCall :=
  if !d.dbusValid || !d.mountpoint.isEmpty then (d, [], [])
  else
    let reply := u.mountDevice d.path
    if !reply.isEmpty then
      (d, [Event.errorMessage d.path reply], [AdapterCall.mountCall d.path])
    else
      let r := d.updateDeviceProperties u
      (r.fst, r.snd, [AdapterCall.mountCall d.path])

/-- `Device::Device` (manager.cpp lines 13-29): QString members default to
empty, the listed members are initialized in the init list, then an
immediate synchronous refresh runs. The signals emitted during this refresh
are dropped by the caller-side model: `Manager::scanDevices` connects the
device's signals only after the constructor returns. -/
def Device.construct (u : UDisks2) (block : String) : Device × List Event :=
  let d0 : Device := {
    name := "", path := block, dev := "", drive := "", mountpoint := "",
    filesystem := "", isOptical := false, isRemovable := false,
    hasMedia := false, opticalDataTracks := 0, opticalAudioTracks := 0,
    isBlankDisc := false, hasPartition := false,
    dbusValid := u.devBusValid block }
  d0.updateDeviceProperties u

/-- The DBUS_PATH namespace root of the uDisks2 service (from `udisks2.h`,
the service adapter header; the spec calls it the device-management
namespace). -/
def DBUS_PATH : String := "/org/freedesktop/UDisks2"

/-- `QString::startsWith`: the character sequence of `p` is a prefix of the
character sequence of `s`. -/
def qStartsWith (s p : String) : Bool :=
  p.data.isPrefixOf s.data

/-- State of the `Manager` (manager.h): the registry mapping device paths to
`Device` objects (a QMap, keys unique), and the validity of the presence
handle `dbus` to the uDisks2 object manager. -/
structure Manager where
  devices : List (String × Device)
  dbusValid : Bool
  deriving DecidableEq, Repr

/-- The set (as a list of keys) of paths tracked by the registry. -/
def Manager.trackedPaths (m : Manager) : List String :=
  m.devices.map Prod.fst

/-- `devices.contains(path)` on the registry map. -/
def Manager.containsDevice (m : Manager) (p : String) : Bool :=
  m.devices.any (fun kv => kv.fst == p)

/-- `devices[path]` lookup on the registry map. -/
def Manager.getDevice (m : Manager) (p : String) : Option Device :=
  (m.devices.find? (fun kv => kv.fst == p)).map Prod.snd

/-- The loop of `Manager::scanDevices` (manager.cpp lines 129-138): for each
enumerated path not already in the registry, construct a Device and insert
it; paths already present are skipped. -/
def scanLoop (u : UDisks2) (found : List String)
    (devs : List (String × Device)) : List (String × Device) :=
  match found with
  | [] => devs
  | p :: rest =>
    if devs.any (fun kv => kv.fst == p) then scanLoop u rest devs
    else scanLoop u rest (devs ++ [(p, (Device.construct u p).fst)])

/-- `Manager::scanDevices` (manager.cpp lines 126-140): reconcile the
registry against a fresh enumeration (adding missing paths only) and emit
exactly one `updatedDevices` event. -/
def Manager.scanDevices (u : UDisks2) (m : Manager) : Manager × List Event :=
  ({ m with devices := scanLoop u u.getDevices m.devices },
   [Event.updatedDevices])

/-- `Manager::deviceAdded` (manager.cpp lines 142-150): no-op when the
presence handle is invalid or the path is under the jobs sub-namespace;
otherwise re-run `scanDevices` and emit `foundNewDevice` with the path. -/
def Manager.deviceAdded (u : UDisks2) (m : Manager) (objPath : String) :
    Manager × List Event :=
  if !m.dbusValid then (m, [])
  else if qStartsWith objPath (DBUS_PATH ++ "/jobs") then (m, [])
  else
    let r := m.scanDevices u
    (r.fst, r.snd ++ [Event.foundNewDevice objPath])

/-- `Manager::deviceRemoved` (manager.cpp lines 152-164): no-op when the
presence handle is invalid or the path is under the jobs sub-namespace; if
the path is tracked and a fresh enumeration still contains it, return
without doing anything further; otherwise remove the tracked entry (if any)
and re-run `scanDevices`. -/
def Manager.deviceRemoved (u : UDisks2) (m : Manager) (objPath : String) :
    Manager × List Event :=
  if !m.dbusValid then (m, [])
  else
    let deviceExists := m.containsDevice objPath
    if qStartsWith objPath (DBUS_PATH ++ "/jobs") then (m, [])
    else if deviceExists && u.getDevices.contains objPath then (m, [])
    else
      let m1 : Manager :=
        if deviceExists then
          { m with devices := m.devices.eraseP (fun kv => kv.fst == objPath) }
        else m
      m1.scanDevices u

/-! ### Concrete fixtures used in witnesses and counterexamples -/

/-- A concrete adapter state: no devices, all queries return defaults. -/
def uBase : UDisks2 := {
  getDevices := []
  getDrivePath := fun _ => "drive0"
  getDeviceName := fun _ => "Disk"
  isRemovable := fun _ => false
  getMountPoint := fun _ => ""
  getFileSystem := fun _ => ""
  isOptical := fun _ => false
  hasMedia := fun _ => false
  opticalDataTracks := fun _ => 0
  opticalAudioTracks := fun _ => 0
  opticalMediaIsBlank := fun _ => false
  hasPartition := fun _ => false
  mountDevice := fun _ => ""
  unmountDevice := fun _ => ""
  ejectDevice := fun _ => ""
  devBusValid := fun _ => true }

/-- A concrete unmounted device with a valid bus interface. -/
def dBase : Device := {
  name := "Disk", path := "/a", dev := "a", drive := "drive0",
  mountpoint := "", filesystem := "", isOptical := false,
  isRemovable := false, hasMedia := false, opticalDataTracks := 0,
  opticalAudioTracks := 0, isBlankDisc := false, hasPartition := false,
  dbusValid := true }

/-- The concrete device `dBase`, mounted at `/mnt`. -/
def dMnt : Device := { dBase with mountpoint := "/mnt" }

/-- A registry tracking the single path `/a`, with a valid presence handle. -/
def mA : Manager := { devices := [("/a", dBase)], dbusValid := true }

/-- Adapter state whose enumeration returns exactly `/a`. -/
def uHasA : UDisks2 := { uBase with getDevices := ["/a"] }

/-- A registry with no devices and an invalid presence handle. -/
def mInvalid : Manager := { devices := [], dbusValid := false }

/-- Adapter state whose eject call fails with the message `boom`. -/
def uBoomEj : UDisks2 := { uBase with ejectDevice := fun _ => "boom" }

/-- Adapter state reporting an optical drive whose eject call fails with
`boom`; unmount succeeds and the refreshed mountpoint is empty. -/
def uOptBoom : UDisks2 :=
  { uBase with isOptical := fun _ => true, ejectDevice := fun _ => "boom" }

/-- Adapter state reporting an optical drive; all mutation calls succeed. -/
def uOpt : UDisks2 := { uBase with isOptical := fun _ => true }

/-- Adapter state whose unmount call fails with the message `denied`. -/
def uDenied : UDisks2 := { uBase with unmountDevice := fun _ => "denied" }

/-- Adapter state reporting media present in the drive. -/
def uMedia : UDisks2 := { uBase with hasMedia := fun _ => true }


/-! ### Helper lemmas about the per-device refresh -/

theorem upd_path (u : UDisks2) (d : Device) :
    (d.updateDeviceProperties u).fst.path = d.path := by
  unfold Device.updateDeviceProperties
  split <;> rfl

theorem upd_dbusValid (u : UDisks2) (d : Device) :
    (d.updateDeviceProperties u).fst.dbusValid = d.dbusValid := by
  unfold Device.updateDeviceProperties
  split <;> rfl

theorem upd_fst (u : UDisks2) (d : Device) (hv : d.dbusValid = true) :
    (d.updateDeviceProperties u).fst = { d with
      drive := u.getDrivePath d.path
      name := u.getDeviceName (u.getDrivePath d.path)
      dev := (d.path.splitOn "/").getLastD ""
      isRemovable := u.isRemovable (u.getDrivePath d.path)
      mountpoint := u.getMountPoint d.path
      filesystem := u.getFileSystem d.path
      isOptical := u.isOptical (u.getDrivePath d.path)
      hasMedia := u.hasMedia (u.getDrivePath d.path)
      opticalDataTracks := u.opticalDataTracks (u.getDrivePath d.path)
      opticalAudioTracks := u.opticalAudioTracks (u.getDrivePath d.path)
      isBlankDisc := u.opticalMediaIsBlank (u.getDrivePath d.path)
      hasPartition := u.hasPartition d.path } := by
  unfold Device.updateDeviceProperties
  rw [hv]
  simp

theorem upd_snd (u : UDisks2) (d : Device) (hv : d.dbusValid = true) :
    (d.updateDeviceProperties u).snd =
      (if d.hasMedia ≠ u.hasMedia (u.getDrivePath d.path) then
        [Event.mediaChanged d.path (u.hasMedia (u.getDrivePath d.path))] else []) ++
      (if d.mountpoint ≠ u.getMountPoint d.path then
        [Event.mountpointChanged d.path (u.getMountPoint d.path)] else []) ++
      (if d.name ≠ u.getDeviceName (u.getDrivePath d.path) then
        [Event.nameChanged d.path (u.getDeviceName (u.getDrivePath d.path))] else []) := by
  unfold Device.updateDeviceProperties
  rw [hv]
  simp

theorem upd_no_error (u : UDisks2) (d : Device) (p s : String) :
    Event.errorMessage p s ∉ (d.updateDeviceProperties u).snd := by
  unfold Device.updateDeviceProperties
  split
  · simp only []
    intro hmem
    rcases List.mem_append.mp hmem with hmem | hmem
    · rcases List.mem_append.mp hmem with hmem | hmem <;>
        · split at hmem <;> simp_all
    · split at hmem <;> simp_all
  · simp

/-! ### Helper lemmas about the reconciliation loop -/

theorem scanLoop_mem_keys (u : UDisks2) (found : List String)
    (devs : List (String × Device)) (p : String) :
    p ∈ (scanLoop u found devs).map Prod.fst ↔
      p ∈ devs.map Prod.fst ∨ p ∈ found := by
  induction found generalizing devs with
  | nil => simp [scanLoop]
  | cons q rest ih =>
    unfold scanLoop
    split
    · next hq =>
      rw [ih]
      have hqmem : q ∈ devs.map Prod.fst := by
        rcases List.any_eq_true.mp hq with ⟨kv, hkv, hbeq⟩
        exact List.mem_map.mpr ⟨kv, hkv, beq_iff_eq.mp hbeq⟩
      constructor
      · rintro (h | h)
        · exact Or.inl h
        · exact Or.inr (List.mem_cons_of_mem _ h)
      · rintro (h | h)
        · exact Or.inl h
        · rcases List.mem_cons.mp h with rfl | h
          · exact Or.inl hqmem
          · exact Or.inr h
    · rw [ih]
      simp only [List.map_append, List.map_cons, List.map_nil,
        List.mem_append, List.mem_singleton, List.mem_cons]
      tauto

theorem scanLoop_eq_of_subset (u : UDisks2) (found : List String)
    (devs : List (String × Device))
    (h : ∀ q ∈ found, q ∈ devs.map Prod.fst) :
    scanLoop u found devs = devs := by
  induction found with
  | nil => rfl
  | cons q rest ih =>
    unfold scanLoop
    have hq : devs.any (fun kv => kv.fst == q) = true := by
      rcases List.mem_map.mp (h q (List.mem_cons_self q rest)) with ⟨kv, hkv, hfst⟩
      exact List.any_eq_true.mpr ⟨kv, hkv, beq_iff_eq.mpr hfst⟩
    rw [if_pos hq]
    exact ih (fun x hx => h x (List.mem_cons_of_mem _ hx))

theorem scanLoop_find? (u : UDisks2) (found : List String)
    (devs : List (String × Device)) (p : String)
    (h : p ∈ devs.map Prod.fst) :
    (scanLoop u found devs).find? (fun kv => kv.fst == p) =
      devs.find? (fun kv => kv.fst == p) := by
  induction found generalizing devs with
  | nil => rfl
  | cons q rest ih =>
    unfold scanLoop
    split
    · exact ih devs h
    · have hsome : (devs.find? (fun kv => kv.fst == p)).isSome := by
        rcases List.mem_map.mp h with ⟨kv, hkv, hfst⟩
        exact List.find?_isSome.mpr ⟨kv, hkv, beq_iff_eq.mpr hfst⟩
      have hmem : p ∈ (devs ++ [(q, (Device.construct u q).fst)]).map Prod.fst := by
        rw [List.map_append, List.mem_append]
        exact Or.inl h
      rw [ih _ hmem, List.find?_append]
      rcases Option.isSome_iff_exists.mp hsome with ⟨kv, hkv⟩
      rw [hkv]
      rfl

/-- Bridge between `String.isEmpty = false` and inequality with `""`. -/
theorem isEmpty_false_iff (s : String) : s.isEmpty = false ↔ s ≠ "" := by
  have h := String.isEmpty_iff s
  cases hE : s.isEmpty <;> simp_all


/-- Error events in an `eject` trace (valid bus interface): one occurs
exactly when the adapter's reply is non-empty, and any error event carries
the device path and the adapter's reply verbatim. -/
theorem eject_trace_error (u : UDisks2) (d : Device) (hv : d.dbusValid = true) :
    ((∃ s, Event.errorMessage d.path s ∈ (Device.eject u d).snd.fst) ↔
        u.ejectDevice d.drive ≠ "") ∧
    (∀ q s, Event.errorMessage q s ∈ (Device.eject u d).snd.fst →
        q = d.path ∧ s = u.ejectDevice d.drive) := by
  unfold Device.eject
  rw [hv]
  simp only [Bool.not_true, Bool.false_eq_true, if_false]
  cases hE : (u.ejectDevice d.drive).isEmpty with
  | false =>
    rw [isEmpty_false_iff] at hE
    simp only [Bool.not_false, if_true, hE]
    constructor
    · constructor
      · intro _
        exact hE
      · intro _
        refine ⟨u.ejectDevice d.drive, ?_⟩
        rw [if_neg (by simp [hE])]
        rw [upd_path]
        exact List.mem_append_right _ (List.mem_singleton.mpr rfl)
    · intro q s hmem
      rcases List.mem_append.mp hmem with hmem | hmem
      · exact absurd hmem (upd_no_error u d q s)
      · rw [if_neg (by simp [hE]), upd_path] at hmem
        rcases List.mem_singleton.mp hmem with h
        exact ⟨(Event.errorMessage.injEq _ _ _ _).mp h |>.1,
               (Event.errorMessage.injEq _ _ _ _).mp h |>.2⟩
  | true =>
    have hE' : u.ejectDevice d.drive = "" := (String.isEmpty_iff _).mp hE
    simp only [hE, Bool.not_true, Bool.false_eq_true, if_false]
    constructor
    · constructor
      · rintro ⟨s, hmem⟩
        exact absurd hmem (upd_no_error u d d.path s)
      · intro h
        exact absurd hE' h
    · intro q s hmem
      exact absurd hmem (upd_no_error u d q s)


set_option maxRecDepth 8000

/-! ### Claims -/

/-- C1 counterexample: with a registry tracking the stale path `/a` and an
enumeration returning no paths, the tracked path set after `scanDevices`
still contains `/a`, which is not in the enumeration — so the tracked path
set does not equal the enumeration's path set. -/
theorem C1_counterexample :
    "/a" ∈ (Manager.scanDevices uBase mA).fst.trackedPaths ∧
    "/a" ∉ uBase.getDevices := by decide

/-- C1 (amended): after any call to `scanDevices`, the registry's tracked
path set equals the union of the prior tracked path set and the
enumeration's path set — paths missing from the enumeration are never
removed by reconciliation. -/
theorem C1_scanDevices_paths (u : UDisks2) (m : Manager) (p : String) :
    p ∈ (Manager.scanDevices u m).fst.trackedPaths ↔
      p ∈ m.trackedPaths ∨ p ∈ u.getDevices := by
  simpa [Manager.scanDevices, Manager.trackedPaths] using
    scanLoop_mem_keys u u.getDevices m.devices p

/-- C8: with a valid presence handle, the device-added handler ignores paths
under the jobs sub-namespace (registry unchanged, no events); for any other
path it re-runs full enumeration and additionally emits exactly one
`foundNewDevice` event carrying the path that triggered it. -/
theorem C8_deviceAdded (u : UDisks2) (m : Manager) (p : String)
    (hv : m.dbusValid = true) :
    (qStartsWith p (DBUS_PATH ++ "/jobs") = true →
        Manager.deviceAdded u m p = (m, [])) ∧
    (qStartsWith p (DBUS_PATH ++ "/jobs") = false →
        Manager.deviceAdded u m p =
          ((Manager.scanDevices u m).fst,
           [Event.updatedDevices, Event.foundNewDevice p])) := by
  unfold Manager.deviceAdded
  rw [hv]
  constructor
  · intro hjobs
    rw [hjobs]
    rfl
  · intro hjobs
    rw [hjobs]
    rfl

/-- C8 witness: a concrete jobs-namespace notification is ignored. -/
theorem C8_witness :
    Manager.deviceAdded uBase mA "/org/freedesktop/UDisks2/jobs/1" =
      (mA, []) :=
  (C8_deviceAdded uBase mA "/org/freedesktop/UDisks2/jobs/1" rfl).1 (by decide)

/-- C9: with a valid bus interface, `eject` emits an error event exactly
when the adapter's reply is non-empty, and every error event in its trace
carries the device path and exactly the adapter's reply — the synthesized
"Failed to eject" fallback is never emitted. -/
theorem C9_eject_error (u : UDisks2) (d : Device) (hv : d.dbusValid = true) :
    ((∃ s, Event.errorMessage d.path s ∈ (Device.eject u d).snd.fst) ↔
        u.ejectDevice d.drive ≠ "") ∧
    (∀ q s, Event.errorMessage q s ∈ (Device.eject u d).snd.fst →
        q = d.path ∧ s = u.ejectDevice d.drive) :=
  eject_trace_error u d hv

/-- C9 witness: a concrete failing eject reports the adapter's own message
on the device's path. -/
theorem C9_witness :
    "/a" = dBase.path ∧ "boom" = uBoomEj.ejectDevice dBase.drive :=
  (C9_eject_error uBoomEj dBase rfl).2 "/a" "boom" (by decide)

/-- C10: both bus notification handlers are complete no-ops when the
presence handle to the service is invalid: the registry is unchanged and no
events are emitted, for every notification path. -/
theorem C10_handlers_noop (u : UDisks2) (m : Manager) (p : String)
    (hv : m.dbusValid = false) :
    Manager.deviceAdded u m p = (m, []) ∧
    Manager.deviceRemoved u m p = (m, []) := by
  unfold Manager.deviceAdded Manager.deviceRemoved
  rw [hv]
  exact ⟨rfl, rfl⟩

/-- C10 witness: a concrete notification on an invalid handle is ignored by
both handlers. -/
theorem C10_witness :
    Manager.deviceAdded uBase mInvalid "/a" = (mInvalid, []) ∧
    Manager.deviceRemoved uBase mInvalid "/a" = (mInvalid, []) :=
  C10_handlers_noop uBase mInvalid "/a" rfl

/-- C2 counterexample: a removed-notification for the non-jobs path `/a`,
which is tracked and still present in a fresh enumeration, leaves the
registry untouched and emits no events at all — the handler does not finish
by re-running full enumeration in this non-ignored case. -/
theorem C2_counterexample :
    qStartsWith "/a" (DBUS_PATH ++ "/jobs") = false ∧
    mA.containsDevice "/a" = true ∧
    uHasA.getDevices.contains "/a" = true ∧
    mA.dbusValid = true ∧
    Manager.deviceRemoved uHasA mA "/a" = (mA, []) := by decide

/-- C2 (amended): with a valid presence handle and a non-jobs path, the
device-removed handler does nothing at all (keeping the tracked Device) when
the path is tracked and still present in a fresh enumeration; in every
other such case it finishes by re-running full enumeration. -/
theorem C2_deviceRemoved (u : UDisks2) (m : Manager) (p : String)
    (hv : m.dbusValid = true)
    (hjobs : qStartsWith p (DBUS_PATH ++ "/jobs") = false) :
    ((m.containsDevice p && u.getDevices.contains p) = true →
        Manager.deviceRemoved u m p = (m, [])) ∧
    ((m.containsDevice p && u.getDevices.contains p) = false →
        Event.updatedDevices ∈ (Manager.deviceRemoved u m p).snd) := by
  constructor
  · intro h
    rcases Bool.and_eq_true .. |>.mp h with ⟨hc, hcon⟩
    have hmem : p ∈ u.getDevices := by simpa using hcon
    simp [Manager.deviceRemoved, hv, hjobs, hc, hmem]
  · intro h
    simp only [Manager.deviceRemoved, hv, hjobs, Bool.not_true,
      Bool.false_eq_true, if_false, h]
    simp [Manager.scanDevices]

/-- C2 witness: the spurious-removal branch at a concrete input, via the
amended theorem. -/
theorem C2_witness : Manager.deviceRemoved uHasA mA "/a" = (mA, []) :=
  (C2_deviceRemoved uHasA mA "/a" rfl (by decide)).1 (by decide)

/-- C3 counterexample: on an optical device whose unmount succeeds (empty
adapter reply and empty post-refresh mountpoint) but whose automatic eject
fails, an Error event is emitted even though the claim's condition for
emitting one is false. -/
theorem C3_counterexample :
    uOptBoom.unmountDevice dMnt.path = "" ∧
    (dMnt.updateDeviceProperties uOptBoom).fst.mountpoint = "" ∧
    Event.errorMessage "/a" "boom" ∈ (Device.unmount uOptBoom dMnt).snd.fst := by
  decide

/-- C3 (amended): for `unmount` with a valid bus connection and non-empty
mountpoint, the adapter unmount is requested; when the adapter's reply is
non-empty or the post-refresh mountpoint is still non-empty, the refreshed
state is kept and exactly one Error event is appended, carrying the
adapter's reply, or the synthesized "Failed to umount <name>" when that
reply was empty; otherwise any Error event in the trace comes from the
automatically invoked eject on an optical device and carries the eject
adapter's reply. -/
theorem C3_unmount_error (u : UDisks2) (d : Device)
    (hv : d.dbusValid = true) (hm : d.mountpoint ≠ "") :
    AdapterCall.unmountCall d.path ∈ (Device.unmount u d).snd.snd ∧
    (u.unmountDevice d.path ≠ "" ∨
        (d.updateDeviceProperties u).fst.mountpoint ≠ "" →
      Device.unmount u d =
        ((d.updateDeviceProperties u).fst,
         (d.updateDeviceProperties u).snd ++
           [Event.errorMessage d.path
             (if u.unmountDevice d.path = "" then
               "Failed to umount " ++ (d.updateDeviceProperties u).fst.name
              else u.unmountDevice d.path)],
         [AdapterCall.unmountCall d.path])) ∧
    (u.unmountDevice d.path = "" →
     (d.updateDeviceProperties u).fst.mountpoint = "" →
      ∀ q s, Event.errorMessage q s ∈ (Device.unmount u d).snd.fst →
        (d.updateDeviceProperties u).fst.isOptical = true ∧
        s = u.ejectDevice (d.updateDeviceProperties u).fst.drive) := by
  have hmE : d.mountpoint.isEmpty = false := (isEmpty_false_iff _).mpr hm
  unfold Device.unmount
  rw [hv, hmE]
  simp only [Bool.not_true, Bool.or_self, Bool.false_eq_true, if_false]
  cases hR : (u.unmountDevice d.path).isEmpty with
  | false =>
    have hR' : u.unmountDevice d.path ≠ "" := (isEmpty_false_iff _).mp hR
    simp only [hR, Bool.not_false, Bool.true_or, if_true]
    refine ⟨List.mem_singleton.mpr rfl, fun _ => ?_, fun h _ => absurd h hR'⟩
    rw [upd_path, if_neg hR']
    simp
  | true =>
    have hR' : u.unmountDevice d.path = "" := (String.isEmpty_iff _).mp hR
    simp only [hR, Bool.not_true, Bool.false_or]
    cases hM : ((d.updateDeviceProperties u).fst.mountpoint).isEmpty with
    | false =>
      have hM' := (isEmpty_false_iff _).mp hM
      simp only [Bool.not_false, if_true]
      refine ⟨List.mem_singleton.mpr rfl, fun _ => ?_, fun _ h => absurd h hM'⟩
      rw [upd_path, if_pos hR']
    | true =>
      have hM' := (String.isEmpty_iff _).mp hM
      simp only [Bool.not_true, Bool.false_eq_true, if_false]
      cases hO : (d.updateDeviceProperties u).fst.isOptical with
      | true =>
        simp only [hO, if_true]
        refine ⟨List.mem_cons_self _ _, fun h => ?_, fun _ _ q s hmem => ?_⟩
        · rcases h with h | h
          · exact absurd hR' h
          · exact absurd hM' h
        · rcases List.mem_append.mp hmem with hmem | hmem
          · exact absurd hmem (upd_no_error u d q s)
          · have hv' : (d.updateDeviceProperties u).fst.dbusValid = true := by
              rw [upd_dbusValid]; exact hv
            exact ⟨by simp [hO], ((eject_trace_error u _ hv').2 q s hmem).2⟩
      | false =>
        simp only [hO, Bool.false_eq_true, if_false]
        refine ⟨List.mem_singleton.mpr rfl, fun h => ?_, fun _ _ q s hmem => ?_⟩
        · rcases h with h | h
          · exact absurd hR' h
          · exact absurd hM' h
        · exact absurd hmem (upd_no_error u d q s)

/-- C3 witness: a concrete failing unmount emits the adapter's error
message, via the amended theorem's error branch. -/
theorem C3_witness :
    Event.errorMessage "/a" "denied" ∈ (Device.unmount uDenied dMnt).snd.fst := by
  have h := (C3_unmount_error uDenied dMnt rfl (by decide)).2.1 (Or.inl (by decide))
  rw [h]
  decide

/-- C4: when `unmount` succeeds (empty adapter reply and empty post-refresh
mountpoint, under a valid bus connection and a non-empty prior mountpoint),
an eject adapter call is issued exactly when the refreshed device is
optical; on a non-optical device the unmount request is the only adapter
call. -/
theorem C4_unmount_eject (u : UDisks2) (d : Device)
    (hv : d.dbusValid = true) (hm : d.mountpoint ≠ "")
    (hr : u.unmountDevice d.path = "")
    (hp : (d.updateDeviceProperties u).fst.mountpoint = "") :
    ((d.updateDeviceProperties u).fst.isOptical = true →
        (Device.unmount u d).snd.snd =
          [AdapterCall.unmountCall d.path,
           AdapterCall.ejectCall (d.updateDeviceProperties u).fst.drive]) ∧
    ((d.updateDeviceProperties u).fst.isOptical = false →
        (Device.unmount u d).snd.snd = [AdapterCall.unmountCall d.path]) := by
  have hmE : d.mountpoint.isEmpty = false := (isEmpty_false_iff _).mpr hm
  have hrE : (u.unmountDevice d.path).isEmpty = true :=
    (String.isEmpty_iff _).mpr hr
  have hpE : ((d.updateDeviceProperties u).fst.mountpoint).isEmpty = true :=
    (String.isEmpty_iff _).mpr hp
  have hv' : (d.updateDeviceProperties u).fst.dbusValid = true := by
    rw [upd_dbusValid]; exact hv
  unfold Device.unmount
  rw [hv, hmE]
  simp only [Bool.not_true, Bool.or_self, Bool.false_eq_true, if_false,
    hrE, hpE, Bool.not_true, Bool.or_self]
  constructor
  · intro hO
    simp only [hO, if_true]
    unfold Device.eject
    rw [hv']
    simp only [Bool.not_true, Bool.false_eq_true, if_false]
    cases hE : (u.ejectDevice (d.updateDeviceProperties u).fst.drive).isEmpty <;>
      simp [hE]
  · intro hO
    simp [hO]

/-- C4 witness: a successful unmount of a concrete optical device issues the
unmount call followed by the eject call. -/
theorem C4_witness :
    (Device.unmount uOpt dMnt).snd.snd =
      [AdapterCall.unmountCall "/a", AdapterCall.ejectCall "drive0"] := by
  have h := (C4_unmount_eject uOpt dMnt rfl (by decide) (by decide)
    (by decide)).1 (by decide)
  rw [h]
  decide

/-- C5: `scanDevices` leaves every already-tracked path's Device untouched
(same mapped value), is idempotent (a repeated call with the same
enumeration leaves the registry unchanged), and emits exactly one
`updatedDevices` event per call regardless of whether anything changed. -/
theorem C5_scan_idempotent (u : UDisks2) (m : Manager) :
    (∀ p, m.containsDevice p = true →
        (Manager.scanDevices u m).fst.getDevice p = m.getDevice p) ∧
    (Manager.scanDevices u (Manager.scanDevices u m).fst).fst =
        (Manager.scanDevices u m).fst ∧
    (Manager.scanDevices u m).snd = [Event.updatedDevices] := by
  refine ⟨fun p hp => ?_, ?_, rfl⟩
  · have hmem : p ∈ m.devices.map Prod.fst := by
      rcases List.any_eq_true.mp hp with ⟨kv, hkv, hbeq⟩
      exact List.mem_map.mpr ⟨kv, hkv, beq_iff_eq.mp hbeq⟩
    simp only [Manager.scanDevices, Manager.getDevice]
    rw [scanLoop_find? u u.getDevices m.devices p hmem]
  · simp only [Manager.scanDevices]
    congr 1
    exact scanLoop_eq_of_subset u u.getDevices _ (fun q hq =>
      (scanLoop_mem_keys u u.getDevices m.devices q).mpr (Or.inr hq))

/-- C5 witness: at a concrete registry already tracking `/a`, re-scanning
with an enumeration containing `/a` leaves the mapped Device unchanged. -/
theorem C5_witness :
    (Manager.scanDevices uHasA mA).fst.getDevice "/a" = mA.getDevice "/a" :=
  (C5_scan_idempotent uHasA mA).1 "/a" (by decide)

/-- C6: with a valid bus interface, the events of a refresh are exactly the
`mediaChanged`, `mountpointChanged`, `nameChanged` events for those of the
three tracked attributes whose newly fetched value differs from the
previous one, each carrying the device path and the new value; no event is
emitted for any other refreshed attribute. -/
theorem C6_refresh_events (u : UDisks2) (d : Device)
    (hv : d.dbusValid = true) (e : Event) :
    e ∈ (d.updateDeviceProperties u).snd ↔
      (e = Event.mediaChanged d.path (u.hasMedia (u.getDrivePath d.path)) ∧
         d.hasMedia ≠ u.hasMedia (u.getDrivePath d.path)) ∨
      (e = Event.mountpointChanged d.path (u.getMountPoint d.path) ∧
         d.mountpoint ≠ u.getMountPoint d.path) ∨
      (e = Event.nameChanged d.path (u.getDeviceName (u.getDrivePath d.path)) ∧
         d.name ≠ u.getDeviceName (u.getDrivePath d.path)) := by
  rw [upd_snd u d hv]
  split_ifs <;> simp_all

/-- C6 witness: a refresh that newly detects media emits the corresponding
`mediaChanged` event with the device path and the new value. -/
theorem C6_witness :
    Event.mediaChanged "/a" true ∈ (dBase.updateDeviceProperties uMedia).snd :=
  (C6_refresh_events uMedia dBase rfl (Event.mediaChanged "/a" true)).mpr
    (Or.inl ⟨by decide, by decide⟩)

/-- C7: `mount` is a complete no-op (no adapter call, no events, state
unchanged) when the bus connection is invalid or the mountpoint is
non-empty; otherwise it requests mount via the adapter, and on a non-empty
error string emits exactly an Error event carrying the path and that
message without refreshing, while on an empty error string it performs a
refresh. -/
theorem C7_mount (u : UDisks2) (d : Device) :
    ((d.dbusValid = false ∨ d.mountpoint ≠ "") →
        Device.mount u d = (d, [], [])) ∧
    (d.dbusValid = true → d.mountpoint = "" →
      (u.mountDevice d.path ≠ "" →
        Device.mount u d =
          (d, [Event.errorMessage d.path (u.mountDevice d.path)],
           [AdapterCall.mountCall d.path])) ∧
      (u.mountDevice d.path = "" →
        Device.mount u d =
          ((d.updateDeviceProperties u).fst, (d.updateDeviceProperties u).snd,
           [AdapterCall.mountCall d.path]))) := by
  constructor
  · rintro (hv | hm)
    · simp [Device.mount, hv]
    · have hmE : d.mountpoint.isEmpty = false := (isEmpty_false_iff _).mpr hm
      simp [Device.mount, hmE]
  · intro hv hm
    have hmE : d.mountpoint.isEmpty = true := (String.isEmpty_iff _).mpr hm
    constructor
    · intro hr
      have hrE : (u.mountDevice d.path).isEmpty = false :=
        (isEmpty_false_iff _).mpr hr
      simp [Device.mount, hv, hmE, hrE]
    · intro hr
      have hrE : (u.mountDevice d.path).isEmpty = true :=
        (String.isEmpty_iff _).mpr hr
      simp [Device.mount, hv, hmE, hrE]

/-- C7 witness: mounting a concrete already-mounted device is a no-op. -/
theorem C7_witness : Device.mount uBase dMnt = (dMnt, [], []) :=
  (C7_mount uBase dMnt).1 (Or.inr (by decide))

end LuminaDiskManager
